import Mathlib

/-!
Shallow embedding of the branch-predictor simulator core
(`src/branchPredictors.cpp`): the Local, Gshare and Tournament predictors,
their constructors, `getPrediction` and `train` methods, plus an operation
language for call sequences and the reachability predicates used by the
theorems below.

Modelling conventions:
* C++ `int` / `UINT64` values are modelled as `Nat`; every value the code
  stores is non-negative and the bit operations (`&`, `^`, `<<`) coincide
  with `Nat.land` / `Nat.xor` / `Nat.shiftLeft` on the ranges that occur.
* The member `PHTsize` is only assigned for table sizes 4096, 1024, 128;
  for any other size it stays uninitialized in the C++ code.  It is
  modelled as `Option Nat`, with `none` for "uninitialized"; reads of the
  uninitialized member (undefined behaviour in C++) are modelled as
  `Option.getD _ 0` and never exercised by theorems about valid sizes.
* `vector::at` throws on an out-of-range index; table reads are modelled
  with `List.getD _ _ 0`, and the index-range theorem for reachable states
  shows the out-of-range branch is never taken for valid table sizes, so
  the totalized model agrees with the C++ on every state the theorems
  quantify over.
-/

namespace BranchSim

/-- The cascaded `if` chain that every constructor uses to assign `PHTsize`
(the index mask) from `numberOfEntries`; sizes other than 4096, 1024, 128
leave the member uninitialized, modelled as `none`. -/
def maskFor (numberOfEntries : Nat) : Option Nat :=
  if numberOfEntries = 4096 then some 0b111111111111
  else if numberOfEntries = 1024 then some 0b1111111111
  else if numberOfEntries = 128 then some 0b1111111
  else none

/-- The saturating-counter update duplicated verbatim inside
`LocalBranchPredictor::train` and `GshareBranchPredictor::train`:
on a taken branch increment `PHT[index]` if it is below `0b11`,
on a not-taken branch decrement it if it is above `0b00`. -/
def adjustPHT (PHT : List Nat) (index : Nat) (branchWasTaken : Bool) : List Nat :=
  if branchWasTaken then
    if PHT.getD index 0 < 0b11 then PHT.set index (PHT.getD index 0 + 1) else PHT
  else
    if PHT.getD index 0 > 0b00 then PHT.set index (PHT.getD index 0 - 1) else PHT

/-- State of `LocalBranchPredictor`: the (possibly uninitialized) index
mask `PHTsize`, the 128-entry zero-initialized `LHR` array, and the `PHT`
vector. -/
structure LocalBranchPredictor where
  PHTsize : Option Nat
  LHR : List Nat
  PHT : List Nat
deriving DecidableEq, Repr

/-- The `LocalBranchPredictor(UINT64 numberOfEntries)` constructor:
assign the mask via the cascaded ifs, zero-initialize `LHR[128]`, and
push `numberOfEntries` counters initialized to `0b11` onto `PHT`.
There is no validation and no failure path: construction always succeeds. -/
def LocalBranchPredictor.new (numberOfEntries : Nat) : LocalBranchPredictor :=
  { PHTsize := maskFor numberOfEntries
    LHR := List.replicate 128 0
    PHT := List.replicate numberOfEntries 0b11 }

/-- The method `LocalBranchPredictor::getPrediction`: take the seven least
significant bits of the PC, read the per-bucket history as the PHT index,
and predict taken iff the counter is `0b10` or `0b11`.  The method writes
no member, so it is modelled as a pure function of the state. -/
def LocalBranchPredictor.getPrediction (s : LocalBranchPredictor) (branchPC : Nat) : Bool :=
  let LSB := 0b1111111 &&& branchPC
  let index := s.LHR.getD LSB 0
  if s.PHT.getD index 0 ≥ 0b10 then
    true
  else
    false

/-- The method `LocalBranchPredictor::train`: recompute the same index as
`getPrediction`, saturate-adjust `PHT[index]`, and shift the outcome bit
into the bucket's history register, masked by `PHTsize`. -/
def LocalBranchPredictor.train (s : LocalBranchPredictor) (branchPC : Nat)
    (branchWasTaken : Bool) : LocalBranchPredictor :=
  let LSB := 0b1111111 &&& branchPC
  let index := s.LHR.getD LSB 0
  if branchWasTaken then
    { s with PHT := adjustPHT s.PHT index true
             LHR := s.LHR.set LSB (((index <<< 1) + 1) &&& s.PHTsize.getD 0) }
  else
    { s with PHT := adjustPHT s.PHT index false
             LHR := s.LHR.set LSB ((index <<< 1) &&& s.PHTsize.getD 0) }

/-- State of `GshareBranchPredictor`: the (possibly uninitialized) index
mask `PHTsize`, the global history register `GHR` initialized to 0, and
the `PHT` vector. -/
structure GshareBranchPredictor where
  PHTsize : Option Nat
  GHR : Nat
  PHT : List Nat
deriving DecidableEq, Repr

/-- The `GshareBranchPredictor(UINT64 numberOfEntries)` constructor:
assign the mask, start `GHR` at 0, and push `numberOfEntries` counters
initialized to `0b11`.  No validation, no failure path. -/
def GshareBranchPredictor.new (numberOfEntries : Nat) : GshareBranchPredictor :=
  { PHTsize := maskFor numberOfEntries
    GHR := 0
    PHT := List.replicate numberOfEntries 0b11 }

/-- The method `GshareBranchPredictor::getPrediction`: mask the PC with
`PHTsize`, XOR with the global history to obtain the index, and predict
taken iff the counter is `0b10` or `0b11`.  Writes no member. -/
def GshareBranchPredictor.getPrediction (s : GshareBranchPredictor) (branchPC : Nat) : Bool :=
  let LSB := s.PHTsize.getD 0 &&& branchPC
  let index := LSB ^^^ s.GHR
  if s.PHT.getD index 0 ≥ 0b10 then
    true
  else
    false

/-- The method `GshareBranchPredictor::train`: recompute the index,
saturate-adjust `PHT[index]`, and shift the outcome bit into `GHR`,
masked by `PHTsize`. -/
def GshareBranchPredictor.train (s : GshareBranchPredictor) (branchPC : Nat)
    (branchWasTaken : Bool) : GshareBranchPredictor :=
  let LSB := s.PHTsize.getD 0 &&& branchPC
  let index := LSB ^^^ s.GHR
  if branchWasTaken then
    { s with PHT := adjustPHT s.PHT index true
             GHR := ((index <<< 1) + 1) &&& s.PHTsize.getD 0 }
  else
    { s with PHT := adjustPHT s.PHT index false
             GHR := (index <<< 1) &&& s.PHTsize.getD 0 }

/-- State of `TournamentBranchPredictor`: the meta-selector `PHT`, the
member `used` (initialized to the sentinel 2; 1 means local was used,
0 means gshare was used), and the two owned sub-predictors. -/
structure TournamentBranchPredictor where
  PHTsize : Option Nat
  used : Nat
  PHT : List Nat
  gbranch : GshareBranchPredictor
  lbranch : LocalBranchPredictor
deriving DecidableEq, Repr

/-- The `TournamentBranchPredictor(UINT64 numberOfEntries)` constructor:
assign the mask, push `numberOfEntries` selector counters initialized to
`0b11`, and construct both sub-predictors with the same entry count.
The member `used` starts at 2.  No validation, no failure path. -/
def TournamentBranchPredictor.new (numberOfEntries : Nat) : TournamentBranchPredictor :=
  { PHTsize := maskFor numberOfEntries
    used := 2
    PHT := List.replicate numberOfEntries 0b11
    gbranch := GshareBranchPredictor.new numberOfEntries
    lbranch := LocalBranchPredictor.new numberOfEntries }

/-- The method `TournamentBranchPredictor::getPrediction`: read the
selector counter at the masked PC; if it is `0b10` or `0b11`, set the
member `used` to 0 and delegate to gshare, otherwise set `used` to 1 and
delegate to the local predictor.  The write to `used` makes this method
state-mutating, so it is modelled as returning the prediction together
with the updated state. -/
def TournamentBranchPredictor.getPrediction (s : TournamentBranchPredictor)
    (branchPC : Nat) : Bool × TournamentBranchPredictor :=
  let LSB := s.PHTsize.getD 0 &&& branchPC
  if s.PHT.getD LSB 0 ≥ 0b10 then
    (s.gbranch.getPrediction branchPC, { s with used := 0 })
  else
    (s.lbranch.getPrediction branchPC, { s with used := 1 })

/-- The method `TournamentBranchPredictor::train`: query both
sub-predictors (side-effect-free), train both with the real outcome, and
update the selector counter at the masked PC according to the member
`used` and the two recorded sub-predictions.  The C++ writes the two
outcome cases as two consecutive `if` statements with complementary
conditions, rendered here as `if … then … else`. -/
def TournamentBranchPredictor.train (s : TournamentBranchPredictor) (branchPC : Nat)
    (branchWasTaken : Bool) : TournamentBranchPredictor :=
  let gresult := s.gbranch.getPrediction branchPC
  let lresult := s.lbranch.getPrediction branchPC
  let LSB := s.PHTsize.getD 0 &&& branchPC
  if branchWasTaken then
    let t := { s with gbranch := s.gbranch.train branchPC true
                      lbranch := s.lbranch.train branchPC true }
    if t.used = 0 then
      if !gresult && lresult then
        if t.PHT.getD LSB 0 > 0b00 then
          { t with PHT := t.PHT.set LSB (t.PHT.getD LSB 0 - 1) }
        else t
      else if gresult && t.PHT.getD LSB 0 < 0b11 then
        { t with PHT := t.PHT.set LSB (t.PHT.getD LSB 0 + 1) }
      else t
    else if t.used = 1 then
      if gresult && !lresult then
        if t.PHT.getD LSB 0 < 0b11 then
          { t with PHT := t.PHT.set LSB (t.PHT.getD LSB 0 + 1) }
        else t
      else if lresult && t.PHT.getD LSB 0 > 0b00 then
        { t with PHT := t.PHT.set LSB (t.PHT.getD LSB 0 - 1) }
      else t
    else t
  else
    let t := { s with gbranch := s.gbranch.train branchPC false
                      lbranch := s.lbranch.train branchPC false }
    if t.used = 0 then
      if gresult && !lresult then
        if t.PHT.getD LSB 0 > 0b00 then
          { t with PHT := t.PHT.set LSB (t.PHT.getD LSB 0 - 1) }
        else t
      else if !gresult && t.PHT.getD LSB 0 < 0b11 then
        { t with PHT := t.PHT.set LSB (t.PHT.getD LSB 0 + 1) }
      else t
    else if t.used = 1 then
      if !gresult && lresult then
        if t.PHT.getD LSB 0 < 0b11 then
          { t with PHT := t.PHT.set LSB (t.PHT.getD LSB 0 + 1) }
        else t
      else if !lresult && t.PHT.getD LSB 0 > 0b00 then
        { t with PHT := t.PHT.set LSB (t.PHT.getD LSB 0 - 1) }
      else t
    else t

/-- The stateless always-taken baseline predictor. -/
structure AlwaysTakenBranchPredictor where
deriving DecidableEq, Repr

/-- The `AlwaysTakenBranchPredictor` constructor ignores the entry count. -/
def AlwaysTakenBranchPredictor.new (_numberOfEntries : Nat) : AlwaysTakenBranchPredictor :=
  {}

/-- The method `AlwaysTakenBranchPredictor::getPrediction`: always taken. -/
def AlwaysTakenBranchPredictor.getPrediction (_s : AlwaysTakenBranchPredictor)
    (_branchPC : Nat) : Bool :=
  true

/-- The method `AlwaysTakenBranchPredictor::train`: a no-op. -/
def AlwaysTakenBranchPredictor.train (s : AlwaysTakenBranchPredictor) (_branchPC : Nat)
    (_branchWasTaken : Bool) : AlwaysTakenBranchPredictor :=
  s

/-- One call through the shared `BranchPredictorInterface`: either a
`getPrediction` or a `train` call, the two entry points the external
harness may invoke. -/
inductive BPOp where
  | predict (branchPC : Nat) : BPOp
  | train (branchPC : Nat) (branchWasTaken : Bool) : BPOp
deriving DecidableEq, Repr

/-- Effect of one interface call on a `LocalBranchPredictor`
(`getPrediction` writes no member, so it leaves the state unchanged). -/
def LocalBranchPredictor.step (s : LocalBranchPredictor) : BPOp → LocalBranchPredictor
  | .predict _ => s
  | .train a o => s.train a o

/-- Effect of a call sequence on a `LocalBranchPredictor`. -/
def LocalBranchPredictor.run (s : LocalBranchPredictor) (ops : List BPOp) :
    LocalBranchPredictor :=
  ops.foldl LocalBranchPredictor.step s

/-- A `LocalBranchPredictor` state reachable from construction with
`numberOfEntries` entries by some interface call sequence. -/
def LocalBranchPredictor.Reachable (numberOfEntries : Nat) (s : LocalBranchPredictor) : Prop :=
  ∃ ops : List BPOp, (LocalBranchPredictor.new numberOfEntries).run ops = s

/-- Effect of one interface call on a `GshareBranchPredictor`. -/
def GshareBranchPredictor.step (s : GshareBranchPredictor) : BPOp → GshareBranchPredictor
  | .predict _ => s
  | .train a o => s.train a o

/-- Effect of a call sequence on a `GshareBranchPredictor`. -/
def GshareBranchPredictor.run (s : GshareBranchPredictor) (ops : List BPOp) :
    GshareBranchPredictor :=
  ops.foldl GshareBranchPredictor.step s

/-- A `GshareBranchPredictor` state reachable from construction with
`numberOfEntries` entries by some interface call sequence. -/
def GshareBranchPredictor.Reachable (numberOfEntries : Nat) (s : GshareBranchPredictor) : Prop :=
  ∃ ops : List BPOp, (GshareBranchPredictor.new numberOfEntries).run ops = s

/-- Effect of one interface call on a `TournamentBranchPredictor`
(`getPrediction` updates the member `used`). -/
def TournamentBranchPredictor.step (s : TournamentBranchPredictor) :
    BPOp → TournamentBranchPredictor
  | .predict a => (s.getPrediction a).2
  | .train a o => s.train a o

/-- Effect of a call sequence on a `TournamentBranchPredictor`. -/
def TournamentBranchPredictor.run (s : TournamentBranchPredictor) (ops : List BPOp) :
    TournamentBranchPredictor :=
  ops.foldl TournamentBranchPredictor.step s

/-- A `TournamentBranchPredictor` state reachable from construction with
`numberOfEntries` entries by some interface call sequence. -/
def TournamentBranchPredictor.Reachable (numberOfEntries : Nat)
    (s : TournamentBranchPredictor) : Prop :=
  ∃ ops : List BPOp, (TournamentBranchPredictor.new numberOfEntries).run ops = s

/-- The supported table sizes, for which the constructors assign an index
mask. -/
def validSize (n : Nat) : Prop :=
  n = 128 ∨ n = 1024 ∨ n = 4096

/-- Well-formedness of a `LocalBranchPredictor` state for table size `n`:
mask assigned, table lengths as constructed, every history value within
the mask's range and every counter within the saturating range. -/
def LocalBranchPredictor.WF (n : Nat) (s : LocalBranchPredictor) : Prop :=
  s.PHTsize = some (n - 1) ∧ s.PHT.length = n ∧ s.LHR.length = 128 ∧
    (∀ v ∈ s.LHR, v ≤ n - 1) ∧ (∀ c ∈ s.PHT, c ≤ 3)

/-- Well-formedness of a `GshareBranchPredictor` state for table size `n`. -/
def GshareBranchPredictor.WF (n : Nat) (s : GshareBranchPredictor) : Prop :=
  s.PHTsize = some (n - 1) ∧ s.PHT.length = n ∧ s.GHR ≤ n - 1 ∧
    (∀ c ∈ s.PHT, c ≤ 3)

/-- Well-formedness of a `TournamentBranchPredictor` state for table size
`n`, including both sub-predictors. -/
def TournamentBranchPredictor.WF (n : Nat) (s : TournamentBranchPredictor) : Prop :=
  s.PHTsize = some (n - 1) ∧ s.PHT.length = n ∧ (∀ c ∈ s.PHT, c ≤ 3) ∧
    s.gbranch.WF n ∧ s.lbranch.WF n

theorem getD_le_of_all {l : List Nat} (h : ∀ c ∈ l, c ≤ 3) (i : Nat) :
    l.getD i 0 ≤ 3 := by
  induction l generalizing i with
  | nil => simp
  | cons a t ih =>
    cases i with
    | zero => exact h a (List.mem_cons_self a t)
    | succ j => exact ih (fun c hc => h c (List.mem_cons_of_mem a hc)) j

theorem getD_le_of_all_mask {m : Nat} {l : List Nat} (h : ∀ v ∈ l, v ≤ m) (i : Nat) :
    l.getD i 0 ≤ m := by
  induction l generalizing i with
  | nil => simp
  | cons a t ih =>
    cases i with
    | zero => exact h a (List.mem_cons_self a t)
    | succ j => exact ih (fun v hv => h v (List.mem_cons_of_mem a hv)) j

theorem set_all_le {l : List Nat} {m : Nat} (h : ∀ c ∈ l, c ≤ m) {v : Nat}
    (hv : v ≤ m) (i : Nat) : ∀ c ∈ l.set i v, c ≤ m :=
  fun c hc => (List.mem_or_eq_of_mem_set hc).elim (h c) (fun e => e ▸ hv)

theorem adjustPHT_length (PHT : List Nat) (index : Nat) (branchWasTaken : Bool) :
    (adjustPHT PHT index branchWasTaken).length = PHT.length := by
  unfold adjustPHT
  split <;> split <;> simp

theorem adjustPHT_all_le {PHT : List Nat} (h : ∀ c ∈ PHT, c ≤ 3) (index : Nat)
    (branchWasTaken : Bool) : ∀ c ∈ adjustPHT PHT index branchWasTaken, c ≤ 3 := by
  unfold adjustPHT
  split
  · split
    · exact set_all_le h (by omega) index
    · exact h
  · split
    · exact set_all_le h (by have := getD_le_of_all h index; omega) index
    · exact h

theorem adjustPHT_at_top {PHT : List Nat} {index : Nat}
    (h : PHT.getD index 0 = 3) : adjustPHT PHT index true = PHT := by
  simp only [adjustPHT, h]
  norm_num

theorem adjustPHT_at_bot {PHT : List Nat} {index : Nat}
    (h : PHT.getD index 0 = 0) : adjustPHT PHT index false = PHT := by
  simp only [adjustPHT, h]
  norm_num

theorem validSize_mask {n : Nat} (hn : validSize n) : maskFor n = some (n - 1) := by
  rcases hn with h | h | h <;> subst h <;> rfl

theorem validSize_pos {n : Nat} (hn : validSize n) : 0 < n := by
  rcases hn with h | h | h <;> subst h <;> decide

theorem LocalBranchPredictor.WF_new_local {n : Nat} (hn : validSize n) :
    (LocalBranchPredictor.new n).WF n := by
  refine ⟨validSize_mask hn, by simp [LocalBranchPredictor.new], by simp [LocalBranchPredictor.new], ?_, ?_⟩
  · intro v hv
    rw [LocalBranchPredictor.new] at hv
    simp only [List.mem_replicate] at hv
    omega
  · intro c hc
    rw [LocalBranchPredictor.new] at hc
    simp only [List.mem_replicate] at hc
    omega

theorem GshareBranchPredictor.WF_new_gshare {n : Nat} (hn : validSize n) :
    (GshareBranchPredictor.new n).WF n := by
  refine ⟨validSize_mask hn, by simp [GshareBranchPredictor.new], Nat.zero_le _, ?_⟩
  intro c hc
  rw [GshareBranchPredictor.new] at hc
  simp only [List.mem_replicate] at hc
  omega

theorem TournamentBranchPredictor.WF_new_tournament {n : Nat} (hn : validSize n) :
    (TournamentBranchPredictor.new n).WF n := by
  refine ⟨validSize_mask hn, by simp [TournamentBranchPredictor.new], ?_,
    GshareBranchPredictor.WF_new_gshare hn, LocalBranchPredictor.WF_new_local hn⟩
  intro c hc
  rw [TournamentBranchPredictor.new] at hc
  simp only [List.mem_replicate] at hc
  omega

theorem LocalBranchPredictor.train_eq_local (s : LocalBranchPredictor) (a : Nat) (o : Bool) :
    s.train a o =
      { PHTsize := s.PHTsize
        LHR := s.LHR.set (0b1111111 &&& a)
          (((s.LHR.getD (0b1111111 &&& a) 0 <<< 1) + (if o then 1 else 0)) &&& s.PHTsize.getD 0)
        PHT := adjustPHT s.PHT (s.LHR.getD (0b1111111 &&& a) 0) o } := by
  cases o <;> rfl

theorem GshareBranchPredictor.train_eq_gshare (s : GshareBranchPredictor) (a : Nat) (o : Bool) :
    s.train a o =
      { PHTsize := s.PHTsize
        GHR := ((((s.PHTsize.getD 0 &&& a) ^^^ s.GHR) <<< 1) + (if o then 1 else 0)) &&&
          s.PHTsize.getD 0
        PHT := adjustPHT s.PHT ((s.PHTsize.getD 0 &&& a) ^^^ s.GHR) o } := by
  cases o <;> rfl

theorem TournamentBranchPredictor.train_used (s : TournamentBranchPredictor) (a : Nat)
    (o : Bool) : (s.train a o).used = s.used := by
  unfold TournamentBranchPredictor.train
  cases o <;> simp only [Bool.false_eq_true, Bool.true_eq_false, if_true, if_false,
    ite_true, ite_false] <;>
    repeat' first | rfl | split

theorem TournamentBranchPredictor.train_PHTsize (s : TournamentBranchPredictor) (a : Nat)
    (o : Bool) : (s.train a o).PHTsize = s.PHTsize := by
  unfold TournamentBranchPredictor.train
  cases o <;> simp only [Bool.false_eq_true, Bool.true_eq_false, if_true, if_false,
    ite_true, ite_false] <;>
    repeat' first | rfl | split

theorem TournamentBranchPredictor.train_gbranch (s : TournamentBranchPredictor) (a : Nat)
    (o : Bool) : (s.train a o).gbranch = s.gbranch.train a o := by
  unfold TournamentBranchPredictor.train
  cases o <;> simp only [Bool.false_eq_true, Bool.true_eq_false, if_true, if_false,
    ite_true, ite_false] <;>
    repeat' first | rfl | split

theorem TournamentBranchPredictor.train_lbranch (s : TournamentBranchPredictor) (a : Nat)
    (o : Bool) : (s.train a o).lbranch = s.lbranch.train a o := by
  unfold TournamentBranchPredictor.train
  cases o <;> simp only [Bool.false_eq_true, Bool.true_eq_false, if_true, if_false,
    ite_true, ite_false] <;>
    repeat' first | rfl | split

theorem TournamentBranchPredictor.train_PHT_length (s : TournamentBranchPredictor) (a : Nat)
    (o : Bool) : (s.train a o).PHT.length = s.PHT.length := by
  unfold TournamentBranchPredictor.train
  cases o <;> simp only [Bool.false_eq_true, Bool.true_eq_false, if_true, if_false,
    ite_true, ite_false] <;>
    repeat' first | rfl | split | simp only [List.length_set]

theorem TournamentBranchPredictor.train_PHT_le {s : TournamentBranchPredictor}
    (hc : ∀ c ∈ s.PHT, c ≤ 3) (a : Nat) (o : Bool) :
    ∀ c ∈ (s.train a o).PHT, c ≤ 3 := by
  have hb := getD_le_of_all hc (s.PHTsize.getD 0 &&& a)
  unfold TournamentBranchPredictor.train
  cases o <;> simp only [Bool.false_eq_true, Bool.true_eq_false, if_true, if_false,
    ite_true, ite_false] <;>
    repeat' first
      | exact hc
      | exact set_all_le hc (by omega) _
      | exact set_all_le hc (by simp_all [Bool.and_eq_true]; omega) _
      | split

theorem LocalBranchPredictor.WF_train_local {n : Nat} {s : LocalBranchPredictor}
    (h : s.WF n) (a : Nat) (o : Bool) : (s.train a o).WF n := by
  obtain ⟨hm, hp, hl, hv, hc⟩ := h
  rw [LocalBranchPredictor.train_eq_local]
  exact ⟨hm, by simp [adjustPHT_length, hp], by simp [hl],
    set_all_le hv (by rw [hm]; exact Nat.and_le_right) _,
    adjustPHT_all_le hc _ _⟩

theorem GshareBranchPredictor.WF_train_gshare {n : Nat} {s : GshareBranchPredictor}
    (h : s.WF n) (a : Nat) (o : Bool) : (s.train a o).WF n := by
  obtain ⟨hm, hp, hg, hc⟩ := h
  rw [GshareBranchPredictor.train_eq_gshare]
  exact ⟨hm, by simp [adjustPHT_length, hp], by rw [hm]; exact Nat.and_le_right,
    adjustPHT_all_le hc _ _⟩

theorem TournamentBranchPredictor.WF_train_tournament {n : Nat} {s : TournamentBranchPredictor}
    (h : s.WF n) (a : Nat) (o : Bool) : (s.train a o).WF n := by
  obtain ⟨hm, hp, hc, hg, hl⟩ := h
  refine ⟨?_, ?_, ?_, ?_, ?_⟩
  · rw [TournamentBranchPredictor.train_PHTsize]; exact hm
  · rw [TournamentBranchPredictor.train_PHT_length]; exact hp
  · exact TournamentBranchPredictor.train_PHT_le hc a o
  · rw [TournamentBranchPredictor.train_gbranch]
    exact GshareBranchPredictor.WF_train_gshare hg a o
  · rw [TournamentBranchPredictor.train_lbranch]
    exact LocalBranchPredictor.WF_train_local hl a o

theorem TournamentBranchPredictor.predict_snd (s : TournamentBranchPredictor) (a : Nat) :
    (s.getPrediction a).2 = { s with used := if s.PHT.getD (s.PHTsize.getD 0 &&& a) 0 ≥ 0b10 then 0 else 1 } := by
  unfold TournamentBranchPredictor.getPrediction
  split <;> rename_i h
  · rw [if_pos h]
  · rw [if_neg h]

theorem LocalBranchPredictor.WF_step_local {n : Nat} {s : LocalBranchPredictor}
    (h : s.WF n) (op : BPOp) : (s.step op).WF n := by
  cases op with
  | predict _ => exact h
  | train a o => exact LocalBranchPredictor.WF_train_local h a o

theorem GshareBranchPredictor.WF_step_gshare {n : Nat} {s : GshareBranchPredictor}
    (h : s.WF n) (op : BPOp) : (s.step op).WF n := by
  cases op with
  | predict _ => exact h
  | train a o => exact GshareBranchPredictor.WF_train_gshare h a o

theorem TournamentBranchPredictor.WF_step_tournament {n : Nat} {s : TournamentBranchPredictor}
    (h : s.WF n) (op : BPOp) : (s.step op).WF n := by
  cases op with
  | predict a =>
    obtain ⟨hm, hp, hc, hg, hl⟩ := h
    show ((s.getPrediction a).2).WF n
    rw [TournamentBranchPredictor.predict_snd]
    exact ⟨hm, hp, hc, hg, hl⟩
  | train a o => exact TournamentBranchPredictor.WF_train_tournament h a o

theorem LocalBranchPredictor.WF_run_local {n : Nat} {s : LocalBranchPredictor}
    (h : s.WF n) (ops : List BPOp) : (s.run ops).WF n := by
  induction ops generalizing s with
  | nil => exact h
  | cons op t ih => exact ih (LocalBranchPredictor.WF_step_local h op)

theorem GshareBranchPredictor.WF_run_gshare {n : Nat} {s : GshareBranchPredictor}
    (h : s.WF n) (ops : List BPOp) : (s.run ops).WF n := by
  induction ops generalizing s with
  | nil => exact h
  | cons op t ih => exact ih (GshareBranchPredictor.WF_step_gshare h op)

theorem TournamentBranchPredictor.WF_run_tournament {n : Nat} {s : TournamentBranchPredictor}
    (h : s.WF n) (ops : List BPOp) : (s.run ops).WF n := by
  induction ops generalizing s with
  | nil => exact h
  | cons op t ih => exact ih (TournamentBranchPredictor.WF_step_tournament h op)

theorem LocalBranchPredictor.WF_of_reachable_local {n : Nat} {s : LocalBranchPredictor}
    (hn : validSize n) (h : LocalBranchPredictor.Reachable n s) : s.WF n := by
  obtain ⟨ops, rfl⟩ := h
  exact LocalBranchPredictor.WF_run_local (LocalBranchPredictor.WF_new_local hn) ops

theorem GshareBranchPredictor.WF_of_reachable_gshare {n : Nat} {s : GshareBranchPredictor}
    (hn : validSize n) (h : GshareBranchPredictor.Reachable n s) : s.WF n := by
  obtain ⟨ops, rfl⟩ := h
  exact GshareBranchPredictor.WF_run_gshare (GshareBranchPredictor.WF_new_gshare hn) ops

theorem TournamentBranchPredictor.WF_of_reachable_tournament {n : Nat} {s : TournamentBranchPredictor}
    (hn : validSize n) (h : TournamentBranchPredictor.Reachable n s) : s.WF n := by
  obtain ⟨ops, rfl⟩ := h
  exact TournamentBranchPredictor.WF_run_tournament (TournamentBranchPredictor.WF_new_tournament hn) ops

theorem shiftLeft_add_bit (x : Nat) (o : Bool) :
    (x <<< 1) + (if o then 1 else 0) = (x <<< 1) ||| (if o then 1 else 0) := by
  cases o
  · simp
  · simp only [if_true]
    rw [Nat.shiftLeft_eq, Nat.mul_comm]
    have h2 := Nat.mul_add_lt_is_or (show (1 : Nat) < 2 ^ 1 by norm_num) x
    simpa using h2

theorem and_mask_eq_of_le {x n : Nat} (hn : validSize n) (h : x ≤ n - 1) :
    x &&& (n - 1) = x := by
  rcases hn with rfl | rfl | rfl
  · exact Nat.and_pow_two_sub_one_of_lt_two_pow
      (Nat.lt_of_le_of_lt h (show (128 : Nat) - 1 < 2 ^ 7 by norm_num))
  · exact Nat.and_pow_two_sub_one_of_lt_two_pow
      (Nat.lt_of_le_of_lt h (show (1024 : Nat) - 1 < 2 ^ 10 by norm_num))
  · exact Nat.and_pow_two_sub_one_of_lt_two_pow
      (Nat.lt_of_le_of_lt h (show (4096 : Nat) - 1 < 2 ^ 12 by norm_num))

theorem xor_mask_lt {x y n : Nat} (hn : validSize n) (hx : x ≤ n - 1) (hy : y ≤ n - 1) :
    x ^^^ y < n := by
  rcases hn with rfl | rfl | rfl
  · have h := Nat.xor_lt_two_pow (Nat.lt_of_le_of_lt hx (show (128 : Nat) - 1 < 2 ^ 7 by norm_num))
      (Nat.lt_of_le_of_lt hy (show (128 : Nat) - 1 < 2 ^ 7 by norm_num))
    simpa using h
  · have h := Nat.xor_lt_two_pow (Nat.lt_of_le_of_lt hx (show (1024 : Nat) - 1 < 2 ^ 10 by norm_num))
      (Nat.lt_of_le_of_lt hy (show (1024 : Nat) - 1 < 2 ^ 10 by norm_num))
    simpa using h
  · have h := Nat.xor_lt_two_pow (Nat.lt_of_le_of_lt hx (show (4096 : Nat) - 1 < 2 ^ 12 by norm_num))
      (Nat.lt_of_le_of_lt hy (show (4096 : Nat) - 1 < 2 ^ 12 by norm_num))
    simpa using h

theorem TournamentBranchPredictor.train_PHT_of_used_other {s : TournamentBranchPredictor}
    (h0 : s.used ≠ 0) (h1 : s.used ≠ 1) (a : Nat) (o : Bool) :
    (s.train a o).PHT = s.PHT := by
  unfold TournamentBranchPredictor.train
  cases o <;> simp [h0, h1]

/-- **C10**: on a freshly constructed `TournamentBranchPredictor`, calling
`train` before any `getPrediction` leaves the meta-selector table
completely unchanged (the member `used` is initialized to the sentinel 2,
matching neither selector-update branch, and stays 2), while both
sub-predictors are still trained with the given outcome. -/
theorem tournament_fresh_train_selector_untouched (n : Nat) (a : Nat) (o : Bool) :
    ((TournamentBranchPredictor.new n).train a o).PHT = (TournamentBranchPredictor.new n).PHT ∧
    ((TournamentBranchPredictor.new n).train a o).used = 2 ∧
    ((TournamentBranchPredictor.new n).train a o).gbranch =
      (GshareBranchPredictor.new n).train a o ∧
    ((TournamentBranchPredictor.new n).train a o).lbranch =
      (LocalBranchPredictor.new n).train a o := by
  refine ⟨?_, ?_, ?_, ?_⟩
  · exact TournamentBranchPredictor.train_PHT_of_used_other
      (by simp [TournamentBranchPredictor.new]) (by simp [TournamentBranchPredictor.new]) a o
  · rw [TournamentBranchPredictor.train_used]
    rfl
  · rw [TournamentBranchPredictor.train_gbranch]
    rfl
  · rw [TournamentBranchPredictor.train_lbranch]
    rfl

/-- **C4**: for every reachable tournament state and every
(address, outcome) pair, `train` first queries both sub-predictors
(side-effect-free) and then trains both with the real outcome regardless
of which one was selected for the live prediction; afterwards each
sub-predictor is exactly in the state reached by training it on
(address, outcome) directly. -/
theorem tournament_train_updates_both_subs (n : Nat) (_hn : validSize n)
    (s : TournamentBranchPredictor) (_hs : TournamentBranchPredictor.Reachable n s)
    (a : Nat) (o : Bool) :
    (s.train a o).gbranch = s.gbranch.train a o ∧
    (s.train a o).lbranch = s.lbranch.train a o :=
  ⟨TournamentBranchPredictor.train_gbranch s a o,
   TournamentBranchPredictor.train_lbranch s a o⟩

/-- Witness for the C4 theorem at table size 128, the initial state, and
the concrete call `train(5, taken)`. -/
theorem tournament_train_updates_both_subs_witness :
    validSize 128 ∧
    TournamentBranchPredictor.Reachable 128 (TournamentBranchPredictor.new 128) ∧
    ((TournamentBranchPredictor.new 128).train 5 true).gbranch =
      (TournamentBranchPredictor.new 128).gbranch.train 5 true ∧
    ((TournamentBranchPredictor.new 128).train 5 true).lbranch =
      (TournamentBranchPredictor.new 128).lbranch.train 5 true :=
  ⟨Or.inl rfl, ⟨[], rfl⟩,
   (tournament_train_updates_both_subs 128 (Or.inl rfl) _ ⟨[], rfl⟩ 5 true).1,
   (tournament_train_updates_both_subs 128 (Or.inl rfl) _ ⟨[], rfl⟩ 5 true).2⟩

/-- **C1 (amended)**: when the two sub-predictors agree on a branch and
their shared prediction is *incorrect* (differs from the actual outcome),
`train` leaves the meta-selector table unchanged — for every state and
every (address, outcome) pair.  (When they agree and are correct, the
code strengthens the selector toward the sub-predictor recorded in
`used`; see the counterexample.) -/
theorem tournament_selector_unchanged_on_incorrect_agreement
    (s : TournamentBranchPredictor) (a : Nat) (o : Bool)
    (hagree : s.gbranch.getPrediction a = s.lbranch.getPrediction a)
    (hwrong : s.gbranch.getPrediction a ≠ o) :
    (s.train a o).PHT = s.PHT := by
  cases hgv : s.gbranch.getPrediction a <;> cases o
  · rw [hgv] at hwrong
    exact absurd rfl hwrong
  · have hlv : s.lbranch.getPrediction a = false := by
      rw [hgv] at hagree
      exact hagree.symm
    simp [TournamentBranchPredictor.train, hgv, hlv]
  · have hlv : s.lbranch.getPrediction a = true := by
      rw [hgv] at hagree
      exact hagree.symm
    simp [TournamentBranchPredictor.train, hgv, hlv]
  · rw [hgv] at hwrong
    exact absurd rfl hwrong

/-- Witness for the amended C1 theorem: on the freshly constructed
tournament predictor with 128 entries, both sub-predictors predict taken
for address 0 (agreement) while the outcome is not-taken (incorrect), and
training indeed leaves the selector table unchanged. -/
theorem tournament_selector_unchanged_on_incorrect_agreement_witness :
    (TournamentBranchPredictor.new 128).gbranch.getPrediction 0 =
      (TournamentBranchPredictor.new 128).lbranch.getPrediction 0 ∧
    (TournamentBranchPredictor.new 128).gbranch.getPrediction 0 ≠ false ∧
    ((TournamentBranchPredictor.new 128).train 0 false).PHT =
      (TournamentBranchPredictor.new 128).PHT :=
  ⟨by decide, by decide,
   tournament_selector_unchanged_on_incorrect_agreement _ 0 false (by decide) (by decide)⟩

/-- **C8 (amended)**: `getPrediction` leaves every table, history register
and sub-predictor state unchanged; for the local and gshare predictors it
is entirely state-free, but for the tournament predictor it persistently
overwrites the member flag `used`, which a later `train` reads — so an
extra or omitted `getPrediction` call can change how that `train` updates
the meta-selector table (see the counterexample). -/
theorem predict_state_effect (s : TournamentBranchPredictor) (a : Nat)
    (sl : LocalBranchPredictor) (sg : GshareBranchPredictor) :
    (s.getPrediction a).2.PHT = s.PHT ∧
    (s.getPrediction a).2.gbranch = s.gbranch ∧
    (s.getPrediction a).2.lbranch = s.lbranch ∧
    (s.getPrediction a).2.PHTsize = s.PHTsize ∧
    sl.step (BPOp.predict a) = sl ∧
    sg.step (BPOp.predict a) = sg := by
  rw [TournamentBranchPredictor.predict_snd]
  exact ⟨rfl, rfl, rfl, rfl, rfl, rfl⟩

theorem GshareBranchPredictor.getPrediction_eq_gshare (s : GshareBranchPredictor) (a : Nat) :
    s.getPrediction a =
      decide (2 ≤ s.PHT.getD ((s.PHTsize.getD 0 &&& a) ^^^ s.GHR) 0) := by
  unfold GshareBranchPredictor.getPrediction
  show (if s.PHT.getD ((s.PHTsize.getD 0 &&& a) ^^^ s.GHR) 0 ≥ 2 then true else false) = _
  split <;> rename_i h
  · exact (decide_eq_true h).symm
  · exact (decide_eq_false h).symm

theorem LocalBranchPredictor.getPrediction_eq_local (s : LocalBranchPredictor) (a : Nat) :
    s.getPrediction a =
      decide (2 ≤ s.PHT.getD (s.LHR.getD (0b1111111 &&& a) 0) 0) := by
  unfold LocalBranchPredictor.getPrediction
  show (if s.PHT.getD (s.LHR.getD (0b1111111 &&& a) 0) 0 ≥ 2 then true else false) = _
  split <;> rename_i h
  · exact (decide_eq_true h).symm
  · exact (decide_eq_false h).symm

/-- **C3**: for the gshare predictor with any valid table size `N` and any
reachable state, `getPrediction(address)` returns the taken reading of
`PHT[(address & IndexMask) XOR GHR]` (counter ≥ 2), and `train(address,
outcome)` bumps the saturating counter at that same index with the
outcome and then sets `GHR = ((idx << 1) | outcomeBit) & IndexMask`,
where `idx` is that same index and `IndexMask = N - 1`. -/
theorem gshare_predict_train_spec (n : Nat) (hn : validSize n)
    (s : GshareBranchPredictor) (hs : GshareBranchPredictor.Reachable n s)
    (a : Nat) (o : Bool) :
    (s.getPrediction a = true ↔ 2 ≤ s.PHT.getD ((a &&& (n - 1)) ^^^ s.GHR) 0) ∧
    (s.train a o).PHT = adjustPHT s.PHT ((a &&& (n - 1)) ^^^ s.GHR) o ∧
    (s.train a o).GHR =
      ((((a &&& (n - 1)) ^^^ s.GHR) <<< 1) ||| (if o then 1 else 0)) &&& (n - 1) := by
  obtain ⟨hm, hp, hg, hc⟩ := GshareBranchPredictor.WF_of_reachable_gshare hn hs
  have hmask : s.PHTsize.getD 0 = n - 1 := by rw [hm]; rfl
  have hand : s.PHTsize.getD 0 &&& a = a &&& (n - 1) := by rw [hmask, Nat.and_comm]
  refine ⟨?_, ?_, ?_⟩
  · rw [GshareBranchPredictor.getPrediction_eq_gshare, hand]
    simp
  · rw [GshareBranchPredictor.train_eq_gshare]
    show adjustPHT s.PHT ((s.PHTsize.getD 0 &&& a) ^^^ s.GHR) o = _
    rw [hand]
  · rw [GshareBranchPredictor.train_eq_gshare]
    show ((((s.PHTsize.getD 0 &&& a) ^^^ s.GHR) <<< 1) + (if o then 1 else 0)) &&&
        s.PHTsize.getD 0 = _
    rw [hand, hmask, shiftLeft_add_bit]

/-- Witness for the C3 theorem at table size 128, the initial gshare
state, address 5 and outcome taken. -/
theorem gshare_predict_train_spec_witness :
    validSize 128 ∧
    GshareBranchPredictor.Reachable 128 (GshareBranchPredictor.new 128) ∧
    ((GshareBranchPredictor.new 128).getPrediction 5 = true ↔
      2 ≤ (GshareBranchPredictor.new 128).PHT.getD
        ((5 &&& (128 - 1)) ^^^ (GshareBranchPredictor.new 128).GHR) 0) :=
  ⟨Or.inl rfl, ⟨[], rfl⟩, (gshare_predict_train_spec 128 (Or.inl rfl) _ ⟨[], rfl⟩ 5 true).1⟩

/-- **C6**: for the local predictor with any valid table size `N` and any
reachable state, the bucket is `address & 0b1111111` (fixed by the LHR
capacity of 128, independently of `N`); `getPrediction(address)` returns
the taken reading of `PHT[LHR[bucket] & IndexMask]` (counter ≥ 2); and
`train(address, outcome)` bumps the counter at that same index `idx` and
then sets `LHR[bucket] = ((idx << 1) | outcomeBit) & IndexMask`. -/
theorem local_predict_train_spec (n : Nat) (hn : validSize n)
    (s : LocalBranchPredictor) (hs : LocalBranchPredictor.Reachable n s)
    (a : Nat) (o : Bool) :
    (s.getPrediction a = true ↔
      2 ≤ s.PHT.getD (s.LHR.getD (a &&& 0b1111111) 0 &&& (n - 1)) 0) ∧
    (s.train a o).PHT = adjustPHT s.PHT (s.LHR.getD (a &&& 0b1111111) 0 &&& (n - 1)) o ∧
    (s.train a o).LHR = s.LHR.set (a &&& 0b1111111)
      ((((s.LHR.getD (a &&& 0b1111111) 0 &&& (n - 1)) <<< 1) |||
        (if o then 1 else 0)) &&& (n - 1)) := by
  obtain ⟨hm, hp, hl, hv, hc⟩ := LocalBranchPredictor.WF_of_reachable_local hn hs
  have hmask : s.PHTsize.getD 0 = n - 1 := by rw [hm]; rfl
  have hbkt : (0b1111111 : Nat) &&& a = a &&& 0b1111111 := Nat.and_comm _ _
  have hidx : s.LHR.getD (a &&& 0b1111111) 0 &&& (n - 1) = s.LHR.getD (a &&& 0b1111111) 0 :=
    and_mask_eq_of_le hn (getD_le_of_all_mask hv _)
  refine ⟨?_, ?_, ?_⟩
  · rw [LocalBranchPredictor.getPrediction_eq_local, hbkt, hidx]
    simp
  · rw [LocalBranchPredictor.train_eq_local]
    show adjustPHT s.PHT (s.LHR.getD (0b1111111 &&& a) 0) o = _
    rw [hbkt, hidx]
  · rw [LocalBranchPredictor.train_eq_local]
    show s.LHR.set (0b1111111 &&& a)
        (((s.LHR.getD (0b1111111 &&& a) 0 <<< 1) + (if o then 1 else 0)) &&&
          s.PHTsize.getD 0) = _
    rw [hbkt, hidx, hmask, shiftLeft_add_bit]

/-- Witness for the C6 theorem at table size 128, the initial local
state, address 0x1000 and outcome not-taken. -/
theorem local_predict_train_spec_witness :
    validSize 128 ∧
    LocalBranchPredictor.Reachable 128 (LocalBranchPredictor.new 128) ∧
    ((LocalBranchPredictor.new 128).getPrediction 4096 = true ↔
      2 ≤ (LocalBranchPredictor.new 128).PHT.getD
        ((LocalBranchPredictor.new 128).LHR.getD (4096 &&& 0b1111111) 0 &&& (128 - 1)) 0) :=
  ⟨Or.inl rfl, ⟨[], rfl⟩,
   (local_predict_train_spec 128 (Or.inl rfl) _ ⟨[], rfl⟩ 4096 false).1⟩

/-- **C9**: for every valid table size `N`, every reachable state of each
predictor and every address, every index computed in `predict` and
`train` — the local predictor's `LHR` bucket and history index, the
gshare XOR index, the tournament selector index, and the indices of the
tournament's nested sub-predictors — lies in `[0, table length)`, so the
out-of-range branch of PHT indexing is unreachable; this rests on the
invariant that the GHR and every LHR entry stay within `[0, IndexMask]`. -/
theorem computed_indices_in_range (n : Nat) (hn : validSize n) (a : Nat) :
    (∀ sl : LocalBranchPredictor, LocalBranchPredictor.Reachable n sl →
      (0b1111111 &&& a) < sl.LHR.length ∧
      sl.LHR.getD (0b1111111 &&& a) 0 < sl.PHT.length ∧
      (∀ v ∈ sl.LHR, v ≤ n - 1)) ∧
    (∀ sg : GshareBranchPredictor, GshareBranchPredictor.Reachable n sg →
      ((sg.PHTsize.getD 0 &&& a) ^^^ sg.GHR) < sg.PHT.length ∧ sg.GHR ≤ n - 1) ∧
    (∀ st : TournamentBranchPredictor, TournamentBranchPredictor.Reachable n st →
      (st.PHTsize.getD 0 &&& a) < st.PHT.length ∧
      ((st.gbranch.PHTsize.getD 0 &&& a) ^^^ st.gbranch.GHR) < st.gbranch.PHT.length ∧
      st.lbranch.LHR.getD (0b1111111 &&& a) 0 < st.lbranch.PHT.length) := by
  have hpos := validSize_pos hn
  have localIdx : ∀ sl : LocalBranchPredictor, LocalBranchPredictor.WF n sl →
      (0b1111111 &&& a) < sl.LHR.length ∧
      sl.LHR.getD (0b1111111 &&& a) 0 < sl.PHT.length ∧ (∀ v ∈ sl.LHR, v ≤ n - 1) := by
    intro sl ⟨hm, hp, hl, hv, hc⟩
    refine ⟨?_, ?_, hv⟩
    · rw [hl]
      exact Nat.lt_of_le_of_lt Nat.and_le_left (by norm_num)
    · rw [hp]
      exact Nat.lt_of_le_of_lt (getD_le_of_all_mask hv _) (by omega)
  have gshareIdx : ∀ sg : GshareBranchPredictor, GshareBranchPredictor.WF n sg →
      ((sg.PHTsize.getD 0 &&& a) ^^^ sg.GHR) < sg.PHT.length ∧ sg.GHR ≤ n - 1 := by
    intro sg ⟨hm, hp, hg, hc⟩
    have hmask : sg.PHTsize.getD 0 = n - 1 := by rw [hm]; rfl
    refine ⟨?_, hg⟩
    rw [hp, hmask]
    exact xor_mask_lt hn Nat.and_le_left hg
  refine ⟨?_, ?_, ?_⟩
  · intro sl hsl
    exact localIdx sl (LocalBranchPredictor.WF_of_reachable_local hn hsl)
  · intro sg hsg
    exact gshareIdx sg (GshareBranchPredictor.WF_of_reachable_gshare hn hsg)
  · intro st hst
    obtain ⟨hm, hp, hc, hg, hl⟩ := TournamentBranchPredictor.WF_of_reachable_tournament hn hst
    have hmask : st.PHTsize.getD 0 = n - 1 := by rw [hm]; rfl
    refine ⟨?_, (gshareIdx _ hg).1, (localIdx _ hl).2.1⟩
    rw [hp, hmask]
    exact Nat.lt_of_le_of_lt Nat.and_le_left (by omega)

/-- Witness for the C9 theorem at table size 128, address 5 and the three
initial states. -/
theorem computed_indices_in_range_witness :
    validSize 128 ∧
    ((TournamentBranchPredictor.new 128).PHTsize.getD 0 &&& 5) <
      (TournamentBranchPredictor.new 128).PHT.length ∧
    ((GshareBranchPredictor.new 128).PHTsize.getD 0 &&& 5) ^^^
      (GshareBranchPredictor.new 128).GHR < (GshareBranchPredictor.new 128).PHT.length ∧
    (LocalBranchPredictor.new 128).LHR.getD (0b1111111 &&& 5) 0 <
      (LocalBranchPredictor.new 128).PHT.length :=
  ⟨Or.inl rfl,
   ((computed_indices_in_range 128 (Or.inl rfl) 5).2.2 _ ⟨[], rfl⟩).1,
   ((computed_indices_in_range 128 (Or.inl rfl) 5).2.1 _ ⟨[], rfl⟩).1,
   ((computed_indices_in_range 128 (Or.inl rfl) 5).1 _ ⟨[], rfl⟩).2.1⟩

theorem LocalBranchPredictor.CountersLE_train_local {s : LocalBranchPredictor}
    (h : ∀ c ∈ s.PHT, c ≤ 3) (a : Nat) (o : Bool) :
    ∀ c ∈ (s.train a o).PHT, c ≤ 3 := by
  rw [LocalBranchPredictor.train_eq_local]
  exact adjustPHT_all_le h _ _

theorem GshareBranchPredictor.CountersLE_train_gshare {s : GshareBranchPredictor}
    (h : ∀ c ∈ s.PHT, c ≤ 3) (a : Nat) (o : Bool) :
    ∀ c ∈ (s.train a o).PHT, c ≤ 3 := by
  rw [GshareBranchPredictor.train_eq_gshare]
  exact adjustPHT_all_le h _ _

theorem LocalBranchPredictor.CountersLE_run_local {s : LocalBranchPredictor}
    (h : ∀ c ∈ s.PHT, c ≤ 3) (ops : List BPOp) :
    ∀ c ∈ (s.run ops).PHT, c ≤ 3 := by
  induction ops generalizing s with
  | nil => exact h
  | cons op t ih =>
    cases op with
    | predict _ => exact ih h
    | train a o => exact ih (LocalBranchPredictor.CountersLE_train_local h a o)

theorem GshareBranchPredictor.CountersLE_run_gshare {s : GshareBranchPredictor}
    (h : ∀ c ∈ s.PHT, c ≤ 3) (ops : List BPOp) :
    ∀ c ∈ (s.run ops).PHT, c ≤ 3 := by
  induction ops generalizing s with
  | nil => exact h
  | cons op t ih =>
    cases op with
    | predict _ => exact ih h
    | train a o => exact ih (GshareBranchPredictor.CountersLE_train_gshare h a o)

/-- Counter bounds for all three tables owned by a tournament predictor;
unlike full well-formedness this needs no assumption on the table size. -/
def TournamentBranchPredictor.CountersLE (s : TournamentBranchPredictor) : Prop :=
  (∀ c ∈ s.PHT, c ≤ 3) ∧ (∀ c ∈ s.gbranch.PHT, c ≤ 3) ∧ (∀ c ∈ s.lbranch.PHT, c ≤ 3)

theorem TournamentBranchPredictor.CountersLE_new (n : Nat) :
    (TournamentBranchPredictor.new n).CountersLE := by
  refine ⟨?_, ?_, ?_⟩ <;> intro c hc <;>
    exact Nat.le_of_eq (List.eq_of_mem_replicate hc)

theorem TournamentBranchPredictor.CountersLE_step {s : TournamentBranchPredictor}
    (h : s.CountersLE) (op : BPOp) : (s.step op).CountersLE := by
  obtain ⟨h1, h2, h3⟩ := h
  cases op with
  | predict a =>
    show ((s.getPrediction a).2).CountersLE
    rw [TournamentBranchPredictor.predict_snd]
    exact ⟨h1, h2, h3⟩
  | train a o =>
    refine ⟨TournamentBranchPredictor.train_PHT_le h1 a o, ?_, ?_⟩
    · show ∀ c ∈ (s.train a o).gbranch.PHT, c ≤ 3
      rw [TournamentBranchPredictor.train_gbranch]
      exact GshareBranchPredictor.CountersLE_train_gshare h2 a o
    · show ∀ c ∈ (s.train a o).lbranch.PHT, c ≤ 3
      rw [TournamentBranchPredictor.train_lbranch]
      exact LocalBranchPredictor.CountersLE_train_local h3 a o

theorem TournamentBranchPredictor.CountersLE_run_tournament {s : TournamentBranchPredictor}
    (h : s.CountersLE) (ops : List BPOp) : (s.run ops).CountersLE := by
  induction ops generalizing s with
  | nil => exact h
  | cons op t ih => exact ih (TournamentBranchPredictor.CountersLE_step h op)

/-- **C5**: every PHT entry of every predictor — including the tournament
meta-selector's — is initialized to 3; after any sequence of
predict/train calls every counter stays within `[0, 3]` (the values are
naturals, so only the upper bound is non-trivial); and the saturating
update is idempotent at the bounds: training taken at a counter of 3
leaves it at 3, training not-taken at 0 leaves it at 0. -/
theorem counters_initialized_and_saturating (n : Nat) (_hn : validSize n)
    (s : TournamentBranchPredictor) (hs : TournamentBranchPredictor.Reachable n s) :
    (∀ c ∈ (TournamentBranchPredictor.new n).PHT, c = 3) ∧
    (∀ c ∈ (TournamentBranchPredictor.new n).gbranch.PHT, c = 3) ∧
    (∀ c ∈ (TournamentBranchPredictor.new n).lbranch.PHT, c = 3) ∧
    (∀ c ∈ s.PHT, c ≤ 3) ∧
    (∀ c ∈ s.gbranch.PHT, c ≤ 3) ∧
    (∀ c ∈ s.lbranch.PHT, c ≤ 3) ∧
    (∀ sl : LocalBranchPredictor, LocalBranchPredictor.Reachable n sl →
      ∀ c ∈ sl.PHT, c ≤ 3) ∧
    (∀ sg : GshareBranchPredictor, GshareBranchPredictor.Reachable n sg →
      ∀ c ∈ sg.PHT, c ≤ 3) ∧
    (∀ PHT : List Nat, ∀ i : Nat, PHT.getD i 0 = 3 → adjustPHT PHT i true = PHT) ∧
    (∀ PHT : List Nat, ∀ i : Nat, PHT.getD i 0 = 0 → adjustPHT PHT i false = PHT) := by
  have init3 : ∀ c ∈ List.replicate n (3 : Nat), c = 3 := by
    intro c hc
    exact (List.eq_of_mem_replicate hc)
  obtain ⟨ops, rfl⟩ := hs
  have hwf := TournamentBranchPredictor.CountersLE_run_tournament
    (TournamentBranchPredictor.CountersLE_new n) ops
  refine ⟨init3, init3, init3, hwf.1, hwf.2.1, hwf.2.2, ?_, ?_, ?_, ?_⟩
  · intro sl hsl
    obtain ⟨ops', rfl⟩ := hsl
    exact LocalBranchPredictor.CountersLE_run_local (fun c hc => by rw [init3 c hc]) ops'
  · intro sg hsg
    obtain ⟨ops', rfl⟩ := hsg
    exact GshareBranchPredictor.CountersLE_run_gshare (fun c hc => by rw [init3 c hc]) ops'
  · intro PHT i h
    exact adjustPHT_at_top h
  · intro PHT i h
    exact adjustPHT_at_bot h

/-- Witness for the C5 theorem at table size 128 and the initial
tournament state. -/
theorem counters_initialized_and_saturating_witness :
    validSize 128 ∧
    TournamentBranchPredictor.Reachable 128 (TournamentBranchPredictor.new 128) ∧
    (∀ c ∈ (TournamentBranchPredictor.new 128).PHT, c = 3) ∧
    (∀ c ∈ (TournamentBranchPredictor.new 128).PHT, c ≤ 3) :=
  ⟨Or.inl rfl, ⟨[], rfl⟩,
   (counters_initialized_and_saturating 128 (Or.inl rfl) _ ⟨[], rfl⟩).1,
   (counters_initialized_and_saturating 128 (Or.inl rfl) _ ⟨[], rfl⟩).2.2.2.1⟩

/-- **C2 counterexample**: constructing a local predictor with table size
100 raises nothing.  The constructor — which, exactly like the C++ code,
contains no validation and no failure path — yields a fully constructed,
usable predictor: its table has the requested 100 entries, the mask
member is simply left uninitialized, and the predictor answers a
prediction for address 0x1000 (its `getPrediction` never reads the
uninitialized member). -/
theorem construction_size_100_usable_cex :
    (LocalBranchPredictor.new 100).PHT.length = 100 ∧
    (LocalBranchPredictor.new 100).PHTsize = none ∧
    (LocalBranchPredictor.new 100).getPrediction 0x1000 = true := by
  decide

/-- **C2 (amended)**: no predictor constructor validates the table size:
construction always succeeds for every size; for sizes outside
{128, 1024, 4096} the index-mask member is left uninitialized (`none`)
in all three predictors while the local predictor's tables are still
fully built (PHT of the requested length seeded with 3, zeroed LHR). -/
theorem construction_performs_no_validation (n : Nat) (h : ¬ validSize n) :
    (LocalBranchPredictor.new n).PHTsize = none ∧
    (GshareBranchPredictor.new n).PHTsize = none ∧
    (TournamentBranchPredictor.new n).PHTsize = none ∧
    (LocalBranchPredictor.new n).PHT = List.replicate n 3 ∧
    (LocalBranchPredictor.new n).LHR = List.replicate 128 0 := by
  have h' : n ≠ 128 ∧ n ≠ 1024 ∧ n ≠ 4096 := by
    unfold validSize at h
    push_neg at h
    exact h
  refine ⟨?_, ?_, ?_, rfl, rfl⟩ <;>
    simp [LocalBranchPredictor.new, GshareBranchPredictor.new,
      TournamentBranchPredictor.new, maskFor, h'.1, h'.2.1, h'.2.2]

/-- Witness for the amended C2 theorem at the concrete invalid size 100. -/
theorem construction_performs_no_validation_witness :
    ¬ validSize 100 ∧
    (LocalBranchPredictor.new 100).PHTsize = none ∧
    (GshareBranchPredictor.new 100).PHTsize = none ∧
    (TournamentBranchPredictor.new 100).PHTsize = none :=
  ⟨by simp [validSize],
   (construction_performs_no_validation 100 (by simp [validSize])).1,
   (construction_performs_no_validation 100 (by simp [validSize])).2.1,
   (construction_performs_no_validation 100 (by simp [validSize])).2.2.1⟩

/-- **C7**: the end-to-end scenario — table size 128, local predictor,
single address 0x1000, outcomes [taken, taken, taken, not-taken].  The
first prediction is taken (counters start at 3); at the fourth step the
index read is 7 and its counter is 3; training on the not-taken outcome
decrements that counter by exactly one; and afterwards the bucket's
history register equals `(prior_index << 1) & IndexMask = 14`. -/
theorem local_end_to_end_scenario :
    (LocalBranchPredictor.new 128).getPrediction 0x1000 = true ∧
    ((LocalBranchPredictor.new 128).run [BPOp.train 0x1000 true, BPOp.train 0x1000 true,
      BPOp.train 0x1000 true]).LHR.getD (0x1000 &&& 0b1111111) 0 = 7 ∧
    ((LocalBranchPredictor.new 128).run [BPOp.train 0x1000 true, BPOp.train 0x1000 true,
      BPOp.train 0x1000 true]).PHT.getD 7 0 = 3 ∧
    ((LocalBranchPredictor.new 128).run [BPOp.train 0x1000 true, BPOp.train 0x1000 true,
      BPOp.train 0x1000 true, BPOp.train 0x1000 false]).PHT.getD 7 0 + 1 =
      ((LocalBranchPredictor.new 128).run [BPOp.train 0x1000 true, BPOp.train 0x1000 true,
        BPOp.train 0x1000 true]).PHT.getD 7 0 ∧
    ((LocalBranchPredictor.new 128).run [BPOp.train 0x1000 true, BPOp.train 0x1000 true,
      BPOp.train 0x1000 true, BPOp.train 0x1000 false]).LHR.getD (0x1000 &&& 0b1111111) 0 =
      (7 <<< 1) &&& 0b1111111 := by
  decide

/-- **C1 counterexample**: a reachable tournament state (table size 128,
built by strictly paired predict/train calls) in which both
sub-predictors agree on address 2 — both predict taken — yet training
address 2 with the taken outcome moves the meta-selector counter at
bucket 2 from 2 to 3, because the agreed prediction was correct and the
code strengthens the selector toward the sub-predictor recorded in
`used`. -/
theorem tournament_selector_changed_on_agreement_cex :
    let s := (TournamentBranchPredictor.new 128).run
      [BPOp.predict 0, BPOp.train 0 false, BPOp.predict 0, BPOp.train 0 false,
       BPOp.predict 0, BPOp.train 0 false, BPOp.predict 2, BPOp.train 2 false,
       BPOp.predict 3, BPOp.train 3 true, BPOp.predict 4, BPOp.train 4 true,
       BPOp.predict 2]
    TournamentBranchPredictor.Reachable 128 s ∧
    s.gbranch.getPrediction 2 = s.lbranch.getPrediction 2 ∧
    s.PHT.getD 2 0 = 2 ∧
    (s.train 2 true).PHT.getD 2 0 = 3 :=
  ⟨⟨_, rfl⟩, by decide, by decide, by decide⟩

/-- **C8 counterexample**: `getPrediction` does not leave all predictor
state unchanged — on a fresh tournament predictor it overwrites the
member `used` (2 becomes 0) — and the flag is persisted across calls: in
the reachable state below, whose last `getPrediction` (address 2) set
`used` to 1, calling `train(3, taken)` directly decrements the selector
counter at bucket 3 from 3 to 2, whereas inserting the specified
`getPrediction(3)` call right before the same `train` leaves that
counter at 3 — an omitted or extra predict call changes how the train
updates the table. -/
theorem tournament_predict_mutates_state_cex :
    ((TournamentBranchPredictor.new 128).getPrediction 0).2 ≠
      TournamentBranchPredictor.new 128 ∧
    (let s := (TournamentBranchPredictor.new 128).run
      [BPOp.predict 0, BPOp.train 0 false, BPOp.predict 0, BPOp.train 0 false,
       BPOp.predict 0, BPOp.train 0 false, BPOp.predict 2, BPOp.train 2 false,
       BPOp.predict 2, BPOp.train 2 false, BPOp.predict 3, BPOp.train 3 true,
       BPOp.predict 4, BPOp.train 4 true, BPOp.predict 2]
     s.gbranch.getPrediction 3 = s.lbranch.getPrediction 3 ∧
     (s.train 3 true).PHT.getD 3 0 = 2 ∧
     (((s.getPrediction 3).2).train 3 true).PHT.getD 3 0 = 3) := by
  refine ⟨by decide, by decide, by decide, by decide⟩

end BranchSim
